import Mathlib

/-!
Verification of the session/negotiation engine of a WebRTC conferencing
client (Jingle sessions over XMPP). The definitions below are shallow
embeddings of the JavaScript sources:
  src/modules/xmpp/JingleSessionPC.js
  src/modules/xmpp/SignalingLayerImpl.js
  src/modules/RTC/TraceablePeerConnection.js
  src/JitsiConference.js
Asynchronous promise chains are embedded as explicit event traces; JS
truthiness on optional strings and numbers is made explicit; the JS
number NaN is a dedicated constructor of JsNum.
-/

namespace JitsiMeet

/-- JS truthiness of an optional string value: undefined and the empty
string are falsy. -/
def truthyStr : Option String → Bool
  | none => false
  | some s => s ≠ ""

/-- JS truthiness of an optional number: undefined and 0 are falsy. -/
def truthyNum : Option Nat → Bool
  | none => false
  | some n => n ≠ 0

/-- A JS number as produced by a Number conversion of an attribute
string: either NaN or a numeric value (SSRC attributes are integers). -/
inductive JsNum
  | nan
  | num (v : Int)
deriving DecidableEq

/-- The guard isNaN(ssrc) or ssrc less than zero used by readSsrcInfo and
by the remote track path (NaN compares false with zero in JS, but the
disjunction makes NaN invalid). -/
def invalidSsrc : JsNum → Bool
  | JsNum.nan => true
  | JsNum.num v => v < 0

/-- Mutating operations invoked on the peer connection during a
renegotiate cycle, in invocation order. -/
inductive PCOp
  | createOffer
  | setLocalDescription
  | setRemoteDescription
  | createAnswer
deriving DecidableEq

/-- Observable outcome of a call to the renegotiate primitive: whether
the RENEGOTIATION_FAILED event was emitted, the sequence of transport
operations performed, and whether the returned promise rejects
immediately. -/
structure RenegResult where
  renegotiationFailedEmitted : Bool
  transportOps : List PCOp
  rejected : Bool
deriving DecidableEq

/-- Embedding of JingleSessionPC._renegotiate together with
_initiatorRenegotiate and _responderRenegotiate. Inputs: the signaling
state of the peer connection, the initiator flag, the optional raw
remote SDP argument and the remote SDP stored on the peer connection
(none when the remote description getter returns an empty object). -/
def _renegotiate (signalingState : String) (isInitiator : Bool)
    (optionalRemoteSdp : Option String) (storedRemoteSdp : Option String) : RenegResult :=
  if signalingState = "closed" then
    { renegotiationFailedEmitted := true, transportOps := [], rejected := true }
  else
    let remoteSdp := if truthyStr optionalRemoteSdp then optionalRemoteSdp else storedRemoteSdp
    if ¬ truthyStr remoteSdp then
      { renegotiationFailedEmitted := true, transportOps := [], rejected := true }
    else if isInitiator then
      { renegotiationFailedEmitted := false
        transportOps := [PCOp.createOffer, PCOp.setLocalDescription, PCOp.setRemoteDescription]
        rejected := false }
    else
      { renegotiationFailedEmitted := false
        transportOps := [PCOp.setRemoteDescription, PCOp.createAnswer, PCOp.setLocalDescription]
        rejected := false }

/-- Reference definition written from the words of the specification: if
the signaling state is closed or no remote description is available
(neither passed in nor stored), reject and emit a renegotiation failed
event without touching the transport; otherwise the initiator performs
createOffer, setLocalDescription, setRemoteDescription and the responder
performs setRemoteDescription, createAnswer, setLocalDescription. -/
def renegotiateSpec (signalingState : String) (isInitiator : Bool)
    (optionalRemoteSdp : Option String) (storedRemoteSdp : Option String) : RenegResult :=
  if signalingState = "closed" ∨ (¬ truthyStr optionalRemoteSdp ∧ ¬ truthyStr storedRemoteSdp) then
    { renegotiationFailedEmitted := true, transportOps := [], rejected := true }
  else if isInitiator then
    { renegotiationFailedEmitted := false
      transportOps := [PCOp.createOffer, PCOp.setLocalDescription, PCOp.setRemoteDescription]
      rejected := false }
  else
    { renegotiationFailedEmitted := false
      transportOps := [PCOp.setRemoteDescription, PCOp.createAnswer, PCOp.setLocalDescription]
      rejected := false }

/-- Synchronous effects of the public session operations: tasks pushed
onto the modification queue. A thrown contract error is the error case
of the Except and carries no effects, so nothing was enqueued or sent. -/
inductive SessionEffect
  | queuedTask (name : String)
deriving DecidableEq

/-- Embedding of JingleSessionPC.invite: throws synchronously on a
responder session, otherwise pushes a single combined add tracks plus
offer task onto the modification queue. -/
def invite (isInitiator : Bool) : Except String (List SessionEffect) :=
  if ¬ isInitiator then Except.error "Trying to invite from the responder session"
  else Except.ok [SessionEffect.queuedTask "invite"]

/-- Embedding of JingleSessionPC.setAnswer: throws synchronously on a
responder session, otherwise delegates to setOfferAnswerCycle which
pushes a single task onto the modification queue. -/
def setAnswer (isInitiator : Bool) : Except String (List SessionEffect) :=
  if ¬ isInitiator then Except.error "Trying to set an answer on the responder session"
  else Except.ok [SessionEffect.queuedTask "setOfferAnswerCycle"]

/-- A remote ICE candidate as constructed by addIceCandidates: the
candidate line with a forced media line index of 0 and an empty sdpMid
(the code assumes bundled transport). -/
structure RTCIceCandidateInit where
  sdpMLineIndex : Nat
  sdpMid : String
  candidate : String
deriving DecidableEq

/-- Modelled from the spec: SDPUtil.candidateFromJingle lives in the sdp
module which is not under src; it translates a jingle candidate element
into an SDP candidate line and is represented here as the element
payload itself (the exact text of the line is irrelevant to the queueing
claims). -/
def candidateFromJingle (elemPayload : String) : String := elemPayload

/-- Embedding of JingleSessionPC.addIceCandidates. The result is the
single task pushed onto the modification queue (the list of candidates
it will apply), or none when the batch is dropped: either the peer
connection signaling state is already closed or no candidate elements
were found. The function is total: a dropped batch logs and returns, it
never throws. -/
def addIceCandidates (signalingState : String) (candElems : List String) :
    Option (List RTCIceCandidateInit) :=
  if signalingState = "closed" then none
  else
    let iceCandidates := candElems.map fun e =>
      { sdpMLineIndex := 0, sdpMid := "", candidate := candidateFromJingle e }
    if iceCandidates.length = 0 then none
    else some iceCandidates

/-- C3: the renegotiate operation equals the reference definition from
the specification: closed signaling state or no available remote
description rejects and emits a renegotiation failed event without
touching the transport; otherwise the initiator runs createOffer,
setLocalDescription, setRemoteDescription and the responder runs
setRemoteDescription, createAnswer, setLocalDescription, in exactly
those orders. -/
theorem renegotiate_matches_spec (signalingState : String) (isInitiator : Bool)
    (optionalRemoteSdp : Option String) (storedRemoteSdp : Option String) :
    _renegotiate signalingState isInitiator optionalRemoteSdp storedRemoteSdp
      = renegotiateSpec signalingState isInitiator optionalRemoteSdp storedRemoteSdp := by
  unfold _renegotiate renegotiateSpec
  by_cases hclosed : signalingState = "closed"
  · simp [hclosed]
  · by_cases hopt : truthyStr optionalRemoteSdp
    · simp [hclosed, hopt]
    · by_cases hstored : truthyStr storedRemoteSdp
      · simp [hclosed, hopt, hstored]
      · simp [hclosed, hopt, hstored]

/-- C9: calling the initiator-only operations invite or setAnswer on a
responder-role session fails with a synchronous throw carrying no
effects, so nothing is enqueued on the modification queue and nothing is
sent over the network. -/
theorem initiator_only_throws :
    invite false = Except.error "Trying to invite from the responder session"
      ∧ setAnswer false = Except.error "Trying to set an answer on the responder session" := by
  constructor <;> rfl

/-- C7: addIceCandidates drops the batch silently (no queued task, no
error) when the peer connection signaling state is closed or when no
candidate elements are found; otherwise it enqueues exactly one task
that applies all candidates of the batch in order. -/
theorem addIceCandidates_drop_or_single_task (signalingState : String)
    (candElems : List String) :
    (signalingState = "closed" → addIceCandidates signalingState candElems = none)
      ∧ (candElems = [] → addIceCandidates signalingState candElems = none)
      ∧ (signalingState ≠ "closed" → candElems ≠ [] →
          addIceCandidates signalingState candElems
            = some (candElems.map fun e =>
                { sdpMLineIndex := 0, sdpMid := "", candidate := candidateFromJingle e })) := by
  refine ⟨fun h => ?_, fun h => ?_, fun h hne => ?_⟩
  · simp [addIceCandidates, h]
  · simp [addIceCandidates, h]
  · simp [addIceCandidates, h, List.length_eq_zero, hne]

/-- Witness for C7 at a concrete closed state, an empty batch, and a
batch of two candidates on an open connection. -/
theorem addIceCandidates_drop_or_single_task_witness :
    addIceCandidates "closed" ["candA"] = none
      ∧ addIceCandidates "stable" [] = none
      ∧ addIceCandidates "stable" ["candA", "candB"]
          = some [{ sdpMLineIndex := 0, sdpMid := "", candidate := "candA" },
                  { sdpMLineIndex := 0, sdpMid := "", candidate := "candB" }] :=
  ⟨(addIceCandidates_drop_or_single_task "closed" ["candA"]).1 rfl,
   (addIceCandidates_drop_or_single_task "stable" []).2.1 rfl,
   ((addIceCandidates_drop_or_single_task "stable" ["candA", "candB"]).2.2
      (by decide) (by decide))⟩

/-- Characters after the first slash of a jid, none when there is no
slash. -/
def afterFirstSlash : List Char → Option (List Char)
  | [] => none
  | c :: rest => if c = '/' then some rest else afterFirstSlash rest

/-- Strophe.getResourceFromJid (external strophe.js library): the part
of a MUC jid after the first slash, empty when there is no slash. -/
def getResourceFromJid (jid : String) : String :=
  match afterFirstSlash jid.toList with
  | none => ""
  | some cs => String.mk cs

/-- A child ssrc-info element of a source element: its owner attribute,
none when the attribute is absent. -/
structure SsrcInfoElem where
  owner : Option String
deriving DecidableEq

/-- A source element of an inbound jingle description: the Number
conversion of its ssrc attribute and its ssrc-info children. -/
structure SourceElem where
  ssrcAttr : JsNum
  infos : List SsrcInfoElem
deriving DecidableEq

/-- Embedding of SignalingLayerImpl.setSSRCOwner: throws a TypeError
when the first argument is not a JS number; otherwise records the
entry in the ssrcOwners map. Registrations are kept as the ordered list
of map insertions. Every JsNum (including NaN) is a JS number, so the
callers in readSsrcInfo can never trigger the throw. -/
def setSSRCOwner (owners : List (JsNum × String)) (ssrc : Option JsNum)
    (endpointId : String) : Except String (List (JsNum × String)) :=
  match ssrc with
  | none => Except.error "SSRC must be a number"
  | some n => Except.ok (owners ++ [(n, endpointId)])

/-- Inner loop of readSsrcInfo for the non-P2P branch: walks the
ssrc-info children of one source element; an entry with a present,
non-empty owner is registered unless the ssrc value is NaN or negative,
in which case a warning is logged and the entry skipped. -/
def processSsrcInfos (ssrc : JsNum) (owners : List (JsNum × String)) (warns : Nat) :
    List SsrcInfoElem → Except String (List (JsNum × String) × Nat)
  | [] => Except.ok (owners, warns)
  | info :: rest =>
    match info.owner with
    | some o =>
      if o ≠ "" then
        if invalidSsrc ssrc then processSsrcInfos ssrc owners (warns + 1) rest
        else
          match setSSRCOwner owners (some ssrc) (getResourceFromJid o) with
          | Except.error e => Except.error e
          | Except.ok owners2 => processSsrcInfos ssrc owners2 warns rest
      else processSsrcInfos ssrc owners warns rest
    | none => processSsrcInfos ssrc owners warns rest

/-- Embedding of JingleSessionPC.readSsrcInfo. In a P2P session every
listed ssrc is registered to the resource of the remote jid with no
validation; in a bridged session each ssrc-info owner is registered only
after the NaN and negativity guard. Returns the ssrcOwners insertion
list and the number of warnings logged, or the error of a throw. -/
def readSsrcInfo (isP2P : Bool) (remoteJid : String) (owners : List (JsNum × String))
    (warns : Nat) : List SourceElem → Except String (List (JsNum × String) × Nat)
  | [] => Except.ok (owners, warns)
  | se :: rest =>
    if isP2P then
      match setSSRCOwner owners (some se.ssrcAttr) (getResourceFromJid remoteJid) with
      | Except.error e => Except.error e
      | Except.ok owners2 => readSsrcInfo isP2P remoteJid owners2 warns rest
    else
      match processSsrcInfos se.ssrcAttr owners warns se.infos with
      | Except.error e => Except.error e
      | Except.ok (owners2, warns2) => readSsrcInfo isP2P remoteJid owners2 warns2 rest

/-- C10 counterexample: in a P2P session a source element whose ssrc
attribute is non-numeric (Number gives NaN) is registered in the
SSRC-to-owner map, keyed by NaN, contrary to the claim that such
entries are never registered in either session type. -/
theorem ssrc_validation_counterexample :
    readSsrcInfo true "room@conference.example/peer1" [] 0 [{ ssrcAttr := JsNum.nan, infos := [] }]
        = Except.ok ([(JsNum.nan, "peer1")], 0)
      ∧ invalidSsrc JsNum.nan = true := by
  constructor
  · rfl
  · rfl

/-- Helper: processSsrcInfos never throws and only adds entries with a
valid ssrc key on top of the owners it was given. -/
theorem processSsrcInfos_ok (ssrc : JsNum) (infos : List SsrcInfoElem) :
    ∀ (owners : List (JsNum × String)) (warns : Nat),
      ∃ l w, processSsrcInfos ssrc owners warns infos = Except.ok (l, w)
        ∧ ∀ e ∈ l, e ∈ owners ∨ (invalidSsrc e.1 = false ∧ e.1 = ssrc) := by
  induction infos with
  | nil =>
      intro owners warns
      exact ⟨owners, warns, rfl, fun e he => Or.inl he⟩
  | cons info rest ih =>
      intro owners warns
      match hOwner : info.owner with
      | none =>
          obtain ⟨l, w, hrun, hmem⟩ := ih owners warns
          exact ⟨l, w, by simpa [processSsrcInfos, hOwner] using hrun, hmem⟩
      | some o =>
          by_cases ho : o = ""
          · obtain ⟨l, w, hrun, hmem⟩ := ih owners warns
            exact ⟨l, w, by simpa [processSsrcInfos, hOwner, ho] using hrun, hmem⟩
          · by_cases hv : invalidSsrc ssrc
            · obtain ⟨l, w, hrun, hmem⟩ := ih owners (warns + 1)
              exact ⟨l, w, by simpa [processSsrcInfos, hOwner, ho, hv] using hrun, hmem⟩
            · obtain ⟨l, w, hrun, hmem⟩ :=
                ih (owners ++ [(ssrc, getResourceFromJid o)]) warns
              refine ⟨l, w, ?_, ?_⟩
              · simpa [processSsrcInfos, hOwner, ho, hv, setSSRCOwner] using hrun
              · intro e he
                rcases hmem e he with hin | hnew
                · rcases List.mem_append.mp hin with h1 | h2
                  · exact Or.inl h1
                  · refine Or.inr ?_
                    have : e = (ssrc, getResourceFromJid o) := by
                      simpa using h2
                    subst this
                    exact ⟨by simpa using hv, rfl⟩
                · exact Or.inr hnew

/-- Helper: in a P2P session readSsrcInfo registers exactly the listed
ssrc values, each mapped to the resource of the remote jid, with no
warnings and no throw. -/
theorem readSsrcInfo_p2p (remoteJid : String) (sources : List SourceElem) :
    ∀ (owners : List (JsNum × String)) (warns : Nat),
      readSsrcInfo true remoteJid owners warns sources
        = Except.ok
            (owners ++ sources.map (fun se => (se.ssrcAttr, getResourceFromJid remoteJid)),
              warns) := by
  induction sources with
  | nil => intro owners warns; simp [readSsrcInfo]
  | cons se rest ih =>
      intro owners warns
      simp [readSsrcInfo, setSSRCOwner, ih]

/-- C10 amended: in a bridged (non-P2P) session, source entries whose
ssrc value is NaN or negative are dropped with a logged warning and
never registered, and no exception is thrown; in a P2P session every
listed ssrc value, including NaN and negative ones, is registered to the
resource of the remote jid without validation, still without a throw. -/
theorem ssrc_validation_amended (remoteJid : String) (sources : List SourceElem)
    (owners : List (JsNum × String)) (warns : Nat) :
    (∃ l w, readSsrcInfo false remoteJid owners warns sources = Except.ok (l, w)
        ∧ ∀ e ∈ l, e ∈ owners ∨ invalidSsrc e.1 = false)
      ∧ readSsrcInfo true remoteJid owners warns sources
          = Except.ok
              (owners ++ sources.map (fun se => (se.ssrcAttr, getResourceFromJid remoteJid)),
                warns) := by
  refine ⟨?_, readSsrcInfo_p2p remoteJid sources owners warns⟩
  induction sources generalizing owners warns with
  | nil => exact ⟨owners, warns, rfl, fun e he => Or.inl he⟩
  | cons se rest ih =>
      obtain ⟨l1, w1, hrun1, hmem1⟩ := processSsrcInfos_ok se.ssrcAttr se.infos owners warns
      obtain ⟨l2, w2, hrun2, hmem2⟩ := ih l1 w1
      refine ⟨l2, w2, ?_, ?_⟩
      · simpa [readSsrcInfo, hrun1] using hrun2
      · intro e he
        rcases hmem2 e he with h1 | hvalid
        · rcases hmem1 e h1 with h0 | hnew
          · exact Or.inl h0
          · exact Or.inr hnew.1
        · exact Or.inr hvalid

/-- Witness for the amended C10 theorem at a concrete bridged batch
holding one valid and one negative ssrc, and a concrete P2P batch. -/
theorem ssrc_validation_amended_witness :
    (∃ l w,
        readSsrcInfo false "room@conference.example/peer1" [] 0
            [{ ssrcAttr := JsNum.num 17, infos := [{ owner := some "room@conference.example/alice" }] },
             { ssrcAttr := JsNum.num (-3), infos := [{ owner := some "room@conference.example/bob" }] }]
          = Except.ok (l, w)
        ∧ ∀ e ∈ l, e ∈ ([] : List (JsNum × String)) ∨ invalidSsrc e.1 = false)
      ∧ readSsrcInfo true "room@conference.example/peer1" [] 0
            [{ ssrcAttr := JsNum.num 17, infos := [{ owner := some "room@conference.example/alice" }] },
             { ssrcAttr := JsNum.num (-3), infos := [{ owner := some "room@conference.example/bob" }] }]
          = Except.ok ([(JsNum.num 17, "peer1"), (JsNum.num (-3), "peer1")], 0) :=
  ssrc_validation_amended "room@conference.example/peer1" _ [] 0

/-- Presence-derived metadata returned by
SignalingLayerImpl.getPeerMediaInfo for an owner and a media kind. -/
structure PeerMediaInfo where
  muted : Bool
  videoType : Option String
deriving DecidableEq

/-- Outcome of the remote track path: the track is ignored (dropped
before surfacing), skipped as a duplicate of an already registered
identical track, or surfaced by emitting REMOTE_TRACK_ADDED. -/
inductive RemoteTrackResult
  | ignored
  | duplicate
  | surfaced (owner : String) (ssrc : JsNum) (muted : Bool)
deriving DecidableEq

/-- Embedding of TraceablePeerConnection._createRemoteTrack: when a
track of the same media kind from the same owner with the identical
underlying WebRTC track already exists, nothing is emitted; otherwise a
JitsiRemoteTrack is created, stored, and REMOTE_TRACK_ADDED emitted. -/
def _createRemoteTrack (hasSameTrack : Bool) (ownerEndpointId : String)
    (ssrc : JsNum) (info : PeerMediaInfo) : RemoteTrackResult :=
  if hasSameTrack then RemoteTrackResult.duplicate
  else RemoteTrackResult.surfaced ownerEndpointId ssrc info.muted

/-- Embedding of TraceablePeerConnection._remoteTrackAdded on the
unified plan path, the only one wired in the constructor. The SDP
extraction steps (matching media lines by mid or msid and the ssrc lines
of the first matching media line) are performed by the sdp module that
is not under src, so their results enter as arguments: the list of
matching media lines, the list of matching ssrc lines, and the Number
conversion of the first ssrc string. The owner and presence lookups of
the signaling layer enter as function arguments. -/
def _remoteTrackAdded (isP2P : Bool) (isUserStream : Bool) (mediaType : String)
    (mediaLines : List String) (ssrcLines : List String) (ssrcValue : JsNum)
    (getSSRCOwner : JsNum → Option String)
    (getPeerMediaInfo : String → String → Option PeerMediaInfo)
    (hasSameTrack : Bool) : RemoteTrackResult :=
  if ¬ isP2P ∧ ¬ isUserStream then RemoteTrackResult.ignored
  else if mediaType = "" then RemoteTrackResult.ignored
  else if mediaLines.isEmpty then RemoteTrackResult.ignored
  else if ssrcLines.isEmpty then RemoteTrackResult.ignored
  else if invalidSsrc ssrcValue then RemoteTrackResult.ignored
  else if ¬ truthyStr (getSSRCOwner ssrcValue) then RemoteTrackResult.ignored
  else
    match getPeerMediaInfo ((getSSRCOwner ssrcValue).getD "") mediaType with
    | none => RemoteTrackResult.ignored
    | some info =>
        _createRemoteTrack hasSameTrack ((getSSRCOwner ssrcValue).getD "") ssrcValue info

/-- C8: a remote track is surfaced (REMOTE_TRACK_ADDED emitted) only
when its ssrc resolves to a registered, non-empty owner and that owner
resolves to peer media info; remote media whose ssrc has no resolvable
owner is dropped without being surfaced. -/
theorem remote_track_surfaced_only_with_owner (isP2P isUserStream : Bool)
    (mediaType : String) (mediaLines ssrcLines : List String) (ssrcValue : JsNum)
    (getSSRCOwner : JsNum → Option String)
    (getPeerMediaInfo : String → String → Option PeerMediaInfo)
    (hasSameTrack : Bool) :
    (∀ o s m,
        _remoteTrackAdded isP2P isUserStream mediaType mediaLines ssrcLines ssrcValue
            getSSRCOwner getPeerMediaInfo hasSameTrack = RemoteTrackResult.surfaced o s m →
          getSSRCOwner ssrcValue = some o ∧ o ≠ ""
            ∧ ∃ info, getPeerMediaInfo o mediaType = some info ∧ m = info.muted)
      ∧ (truthyStr (getSSRCOwner ssrcValue) = false →
          _remoteTrackAdded isP2P isUserStream mediaType mediaLines ssrcLines ssrcValue
              getSSRCOwner getPeerMediaInfo hasSameTrack = RemoteTrackResult.ignored) := by
  constructor
  · intro o s m hsurf
    unfold _remoteTrackAdded at hsurf
    by_cases c1 : ¬ isP2P ∧ ¬ isUserStream
    · rw [if_pos c1] at hsurf; cases hsurf
    rw [if_neg c1] at hsurf
    by_cases c2 : mediaType = ""
    · rw [if_pos c2] at hsurf; cases hsurf
    rw [if_neg c2] at hsurf
    by_cases c3 : mediaLines.isEmpty = true
    · rw [if_pos c3] at hsurf; cases hsurf
    rw [if_neg c3] at hsurf
    by_cases c4 : ssrcLines.isEmpty = true
    · rw [if_pos c4] at hsurf; cases hsurf
    rw [if_neg c4] at hsurf
    by_cases c5 : invalidSsrc ssrcValue = true
    · rw [if_pos c5] at hsurf; cases hsurf
    rw [if_neg c5] at hsurf
    by_cases c6 : ¬ truthyStr (getSSRCOwner ssrcValue) = true
    · rw [if_pos c6] at hsurf; cases hsurf
    rw [if_neg c6] at hsurf
    match hlook : getSSRCOwner ssrcValue with
    | none =>
        rw [hlook] at c6
        simp [truthyStr] at c6
    | some ow =>
        rw [hlook] at c6 hsurf
        have how : ow ≠ "" := by simpa [truthyStr] using c6
        simp only [Option.getD_some] at hsurf
        split at hsurf
        · cases hsurf
        · rename_i info hinfo
          unfold _createRemoteTrack at hsurf
          split at hsurf
          · cases hsurf
          · injection hsurf with h1 h2 h3
            subst h1
            exact ⟨rfl, how, info, hinfo, h3.symm⟩
  · intro hfalse
    unfold _remoteTrackAdded
    by_cases c1 : ¬ isP2P ∧ ¬ isUserStream
    · rw [if_pos c1]
    rw [if_neg c1]
    by_cases c2 : mediaType = ""
    · rw [if_pos c2]
    rw [if_neg c2]
    by_cases c3 : mediaLines.isEmpty = true
    · rw [if_pos c3]
    rw [if_neg c3]
    by_cases c4 : ssrcLines.isEmpty = true
    · rw [if_pos c4]
    rw [if_neg c4]
    by_cases c5 : invalidSsrc ssrcValue = true
    · rw [if_pos c5]
    rw [if_neg c5]
    rw [if_pos (by simp [hfalse] : ¬ truthyStr (getSSRCOwner ssrcValue) = true)]

/-- Concrete owner lookup for the C8 witness: ssrc 42 belongs to
alice. -/
def getSSRCOwner42 : JsNum → Option String :=
  fun n => if n = JsNum.num 42 then some "alice" else none

/-- Concrete presence lookup for the C8 witness: alice has unmuted
audio. -/
def mediaInfoAlice : String → String → Option PeerMediaInfo :=
  fun o k => if o = "alice" ∧ k = "audio" then some { muted := false, videoType := none } else none

/-- Witness for C8: a surfaced track at a concrete environment where
ssrc 42 is owned by alice with unmuted audio presence, and a dropped
track when the owner map is empty. -/
theorem remote_track_surfaced_only_with_owner_witness :
    (getSSRCOwner42 (JsNum.num 42) = some "alice" ∧ "alice" ≠ ""
        ∧ ∃ info, mediaInfoAlice "alice" "audio" = some info ∧ false = info.muted)
      ∧ _remoteTrackAdded false true "audio" ["m=audio"] ["a=ssrc:42"] (JsNum.num 42)
          (fun _ => none) mediaInfoAlice false = RemoteTrackResult.ignored :=
  ⟨(remote_track_surfaced_only_with_owner false true "audio" ["m=audio"] ["a=ssrc:42"]
      (JsNum.num 42) getSSRCOwner42 mediaInfoAlice false).1 "alice" (JsNum.num 42) false rfl,
   (remote_track_surfaced_only_with_owner false true "audio" ["m=audio"] ["a=ssrc:42"]
      (JsNum.num 42) (fun _ => none) mediaInfoAlice false).2 rfl⟩

/-- A remote conference participant as seen by the P2P policy: its MUC
resource id, full jid, bot type attribute, and advertised features. -/
structure ParticipantRec where
  id : String
  jid : String
  botType : Option String
  features : List String
deriving DecidableEq

/-- Feature constant imported from modules/xmpp/xmpp.js; the value is
opaque for the policy decision, only membership in the feature list
matters. -/
def FEATURE_JIGASI : String := "http://jitsi.org/protocol/jigasi"

/-- Embedding of JitsiConference._shouldBeInP2PMode: eligibility is
exactly one remote peer and no bot peer (poltergeist bot type or jigasi
feature). -/
def _shouldBeInP2PMode (peers : List ParticipantRec) : Bool :=
  peers.length = 1
    ∧ ¬ peers.any (fun p => p.botType = some "poltergeist" ∨ FEATURE_JIGASI ∈ p.features)

/-- Action taken by one evaluation of the P2P policy. -/
inductive P2PAction
  | startP2PSession (jid : String)
  | stopP2PSession
  | nothing
deriving DecidableEq

/-- Lexicographic comparison of character lists: the JS relational
operator on strings compares code units left to right, a strict prefix
being smaller. -/
def jsCharsLt : List Char → List Char → Bool
  | [], [] => false
  | [], _ :: _ => true
  | _ :: _, [] => false
  | a :: as, b :: bs => if a < b then true else if b < a then false else jsCharsLt as bs

/-- The JS relational operator applied to two strings. -/
def jsStringLt (a b : String) : Bool := jsCharsLt a.data b.data

/-- Embedding of JitsiConference._maybeStartOrStopP2P. The userLeftEvent
argument is accepted and ignored exactly as in the source, where the
function body never reads it: no deferred timer is armed on any path.
When no P2P session exists and the mode is eligible, the local side with
the greater id returns (waits for an incoming session-initiate), equal
ids return without starting, and otherwise the session is started
immediately with the jid of the single peer. -/
def _maybeStartOrStopP2P (userLeftEvent : Bool) (hasP2PSession : Bool)
    (myId : String) (peers : List ParticipantRec) : P2PAction :=
  let _ := userLeftEvent
  let shouldBeInP2P := _shouldBeInP2PMode peers
  if ¬ hasP2PSession ∧ shouldBeInP2P then
    match peers with
    | [] => P2PAction.nothing
    | peer :: _ =>
      if jsStringLt peer.id myId then P2PAction.nothing
      else if myId = peer.id then P2PAction.nothing
      else P2PAction.startP2PSession peer.jid
  else if hasP2PSession ∧ ¬ shouldBeInP2P then P2PAction.stopP2PSession
  else P2PAction.nothing

/-- Whether a policy action starts a P2P session. -/
def initiates : P2PAction → Bool
  | P2PAction.startP2PSession _ => true
  | _ => false

/-- A participant record qualifies as a bot peer for the P2P policy. -/
def isBotPeer (p : ParticipantRec) : Bool :=
  p.botType = some "poltergeist" ∨ FEATURE_JIGASI ∈ p.features

/-- Irreflexivity of the lexicographic character comparison. -/
theorem jsCharsLt_irrefl (as : List Char) : jsCharsLt as as = false := by
  induction as with
  | nil => rfl
  | cons a rest ih => simp [jsCharsLt, ih]

/-- Asymmetry of the lexicographic character comparison. -/
theorem jsCharsLt_asymm (as bs : List Char) (h : jsCharsLt as bs = true) :
    jsCharsLt bs as = false := by
  induction as generalizing bs with
  | nil =>
      cases bs with
      | nil => simp [jsCharsLt]
      | cons b bs2 => simp [jsCharsLt]
  | cons a rest ih =>
      cases bs with
      | nil => simp [jsCharsLt] at h
      | cons b bs2 =>
          by_cases hab : a < b
          · simp [jsCharsLt, hab, asymm hab, ne_of_gt hab]
          · by_cases hba : b < a
            · simp [jsCharsLt, hab, hba] at h
            · simp only [jsCharsLt, if_neg hab, if_neg hba] at h
              simp [jsCharsLt, hab, hba, ih bs2 h]

/-- Totality of the lexicographic character comparison on distinct
lists. -/
theorem jsCharsLt_total (as bs : List Char) (h : as ≠ bs) :
    jsCharsLt as bs = true ∨ jsCharsLt bs as = true := by
  induction as generalizing bs with
  | nil =>
      cases bs with
      | nil => exact absurd rfl h
      | cons b bs2 => exact Or.inl rfl
  | cons a rest ih =>
      cases bs with
      | nil => exact Or.inr rfl
      | cons b bs2 =>
          rcases lt_trichotomy a b with hab | hab | hab
          · exact Or.inl (by simp [jsCharsLt, hab])
          · subst hab
            have hrest : rest ≠ bs2 := fun hcontra => h (by rw [hcontra])
            rcases ih bs2 hrest with h1 | h1
            · exact Or.inl (by simp [jsCharsLt, lt_irrefl, h1])
            · exact Or.inr (by simp [jsCharsLt, lt_irrefl, h1])
          · exact Or.inr (by simp [jsCharsLt, hab])

/-- Strings with equal character data are equal. -/
theorem string_data_inj (a b : String) (h : a.data = b.data) : a = b := by
  cases a; cases b; exact congrArg String.mk h

/-- C4: in a two-party conference where P2P is eligible (no bot peer on
either view, no existing P2P session), exactly one of the two sides
initiates the P2P session: the side with the smaller id starts it and
the side with the greater id waits, so the decisions are complementary;
when the two ids are equal, neither side starts a session. -/
theorem p2p_tie_break (pa pb : ParticipantRec) (ua ub : Bool)
    (hA : isBotPeer pa = false) (hB : isBotPeer pb = false) :
    (pa.id ≠ pb.id →
        initiates (_maybeStartOrStopP2P ua false pa.id [pb])
          = ! initiates (_maybeStartOrStopP2P ub false pb.id [pa]))
      ∧ (pa.id = pb.id →
          initiates (_maybeStartOrStopP2P ua false pa.id [pb]) = false
            ∧ initiates (_maybeStartOrStopP2P ub false pb.id [pa]) = false) := by
  have helig : ∀ p : ParticipantRec, isBotPeer p = false → _shouldBeInP2PMode [p] = true := by
    intro p hp
    simp only [_shouldBeInP2PMode, isBotPeer] at *
    simp only [List.any_cons, List.any_nil, Bool.or_false]
    simp only [decide_eq_false_iff_not] at hp ⊢
    simp [hp]
  have hda : _shouldBeInP2PMode [pb] = true := helig pb hB
  have hdb : _shouldBeInP2PMode [pa] = true := helig pa hA
  constructor
  · intro hne
    have hdata : pa.id.data ≠ pb.id.data :=
      fun hcontra => hne (string_data_inj pa.id pb.id hcontra)
    rcases jsCharsLt_total pa.id.data pb.id.data hdata with hlt | hlt
    · have h1 : _maybeStartOrStopP2P ua false pa.id [pb] = P2PAction.startP2PSession pb.jid := by
        simp [_maybeStartOrStopP2P, hda, jsStringLt,
          jsCharsLt_asymm pa.id.data pb.id.data hlt, hne]
      have h2 : _maybeStartOrStopP2P ub false pb.id [pa] = P2PAction.nothing := by
        simp [_maybeStartOrStopP2P, hdb, jsStringLt, hlt]
      rw [h1, h2]; rfl
    · have h1 : _maybeStartOrStopP2P ua false pa.id [pb] = P2PAction.nothing := by
        simp [_maybeStartOrStopP2P, hda, jsStringLt, hlt]
      have h2 : _maybeStartOrStopP2P ub false pb.id [pa] = P2PAction.startP2PSession pa.jid := by
        have hne2 : ¬ pb.id = pa.id := fun hcontra => hne hcontra.symm
        simp [_maybeStartOrStopP2P, hdb, jsStringLt,
          jsCharsLt_asymm pb.id.data pa.id.data hlt, hne2]
      rw [h1, h2]; rfl
  · intro heq
    constructor
    · have h1 : _maybeStartOrStopP2P ua false pa.id [pb] = P2PAction.nothing := by
        simp [_maybeStartOrStopP2P, hda, jsStringLt, heq, jsCharsLt_irrefl]
      rw [h1]; rfl
    · have h2 : _maybeStartOrStopP2P ub false pb.id [pa] = P2PAction.nothing := by
        simp [_maybeStartOrStopP2P, hdb, jsStringLt, heq, jsCharsLt_irrefl]
      rw [h2]; rfl

/-- Witness for C4 at two concrete participants with distinct ids and
at a degenerate pair with equal ids. -/
theorem p2p_tie_break_witness :
    (initiates (_maybeStartOrStopP2P false false "aaa"
          [{ id := "bbb", jid := "room@muc/bbb", botType := none, features := [] }])
        = ! initiates (_maybeStartOrStopP2P false false "bbb"
          [{ id := "aaa", jid := "room@muc/aaa", botType := none, features := [] }]))
      ∧ (initiates (_maybeStartOrStopP2P true false "ccc"
            [{ id := "ccc", jid := "room@muc/ccc2", botType := none, features := [] }]) = false
          ∧ initiates (_maybeStartOrStopP2P true false "ccc"
            [{ id := "ccc", jid := "room@muc/ccc1", botType := none, features := [] }]) = false) :=
  ⟨(p2p_tie_break
      { id := "aaa", jid := "room@muc/aaa", botType := none, features := [] }
      { id := "bbb", jid := "room@muc/bbb", botType := none, features := [] }
      false false (by decide) (by decide)).1 (by decide),
   (p2p_tie_break
      { id := "ccc", jid := "room@muc/ccc1", botType := none, features := [] }
      { id := "ccc", jid := "room@muc/ccc2", botType := none, features := [] }
      true true (by decide) (by decide)).2 (by decide)⟩

/-- Embedding of the backToP2PDelay computation in the JitsiConference
constructor: parseInt of the config value, defaulting to 5 when the
option is absent or not numeric. The field is computed and documented
but never read by any code under src. -/
def backToP2PDelay (configValue : Option Int) : Int :=
  match configValue with
  | none => 5
  | some v => v

/-- C5: the code starts the P2P session immediately inside
_maybeStartOrStopP2P for every value of the userLeftEvent flag; the
deferredStartP2PTask field and the backToP2PDelay value (default 5) are
declared in the constructor yet no path arms a deferred timer, so the
switch after the third participant leaves is not debounced. -/
theorem p2p_switch_immediate :
    (∀ userLeftEvent : Bool,
        _maybeStartOrStopP2P userLeftEvent false "aaa"
            [{ id := "bbb", jid := "room@muc/bbb", botType := none, features := [] }]
          = P2PAction.startP2PSession "room@muc/bbb")
      ∧ backToP2PDelay none = 5 := by
  constructor
  · intro u; cases u <;> decide
  · rfl

/-- A locally discovered WebRTC ICE candidate: its candidate line and
the index of the media line it belongs to. -/
structure IceCandidateRec where
  candidate : String
  sdpMLineIndex : Nat
deriving DecidableEq

/-- The per-session outbound candidate state of JingleSessionPC: the
one-shot lasticecandidate latch and the drip container accumulating the
current batch. The missing base-class constructor initializes usedrip
to true and the container to empty, so the drip path is the one
modelled. -/
structure IceOutState where
  lasticecandidate : Bool
  dripContainer : List IceCandidateRec
deriving DecidableEq

/-- Observable outputs of the outbound candidate path: arming the 150 ms
drip timer and sending one transport-info message. A message is the
list of content sections built by sendIceCandidates, each carrying its
media line index and the candidates placed in that section. -/
inductive IceOut
  | armTimer
  | transportInfo (contents : List (Nat × List IceCandidateRec))
deriving DecidableEq

/-- Embedding of the message construction of
JingleSessionPC.sendIceCandidates: one content section per local media
line index that has at least one candidate of the batch, indices walked
in ascending order, each section holding the candidates of that index
in batch order. Candidates whose index matches no local media line are
not placed anywhere. -/
def sendIceCandidates (numMedia : Nat) (candidates : List IceCandidateRec) :
    List (Nat × List IceCandidateRec) :=
  (List.range numMedia).filterMap fun mid =>
    let cands := candidates.filter fun c => c.sdpMLineIndex == mid
    if 0 < cands.length then some (mid, cands) else none

/-- Embedding of JingleSessionPC.sendIceCandidate with usedrip: a real
non-empty candidate while the latch is unset is appended to the drip
container, arming the timer when the container was empty; every other
input (null end-of-candidates marker, empty candidate line, or any
candidate after the latch) sets the one-shot latch and transmits
nothing. The parse step through the sdp module is total here since the
parse failure path only logs and returns. -/
def sendIceCandidate (s : IceOutState) (cand : Option IceCandidateRec) :
    IceOutState × List IceOut :=
  match cand with
  | some c =>
      if c.candidate ≠ "" ∧ s.lasticecandidate = false then
        if s.dripContainer.isEmpty then
          ({ s with dripContainer := s.dripContainer ++ [c] }, [IceOut.armTimer])
        else
          ({ s with dripContainer := s.dripContainer ++ [c] }, [])
      else ({ s with lasticecandidate := true }, [])
  | none => ({ s with lasticecandidate := true }, [])

/-- Expiry of the 150 ms drip timer: an empty container is a no-op (the
guard inside the setTimeout callback), otherwise the whole container is
flushed as one transport-info message and cleared. -/
def dripTimerFire (numMedia : Nat) (s : IceOutState) : IceOutState × List IceOut :=
  if s.dripContainer.isEmpty then (s, [])
  else
    ({ s with dripContainer := [] },
      [IceOut.transportInfo (sendIceCandidates numMedia s.dripContainer)])

/-- Inputs of the outbound candidate machine: a candidate event from the
peer connection (none is the end-of-candidates marker) or the timer
expiry. -/
inductive IceInput
  | cand (c : Option IceCandidateRec)
  | timerFire
deriving DecidableEq

/-- One step of the outbound candidate machine. -/
def iceStep (numMedia : Nat) (s : IceOutState) : IceInput → IceOutState × List IceOut
  | IceInput.cand c => sendIceCandidate s c
  | IceInput.timerFire => dripTimerFire numMedia s

/-- Run of the outbound candidate machine over an input sequence,
collecting all outputs in order. -/
def iceRun (numMedia : Nat) (s : IceOutState) : List IceInput → IceOutState × List IceOut
  | [] => (s, [])
  | i :: rest =>
    let p := iceStep numMedia s i
    let q := iceRun numMedia p.1 rest
    (q.1, p.2 ++ q.2)

/-- The transport-info messages among the outputs. -/
def messagesOf (outs : List IceOut) : List (List (Nat × List IceCandidateRec)) :=
  outs.filterMap fun o =>
    match o with
    | IceOut.transportInfo m => some m
    | _ => none

/-- The candidates of a transport-info message read off section by
section. -/
def transportInfoCandidates (contents : List (Nat × List IceCandidateRec)) :
    List IceCandidateRec :=
  (contents.map Prod.snd).flatten

/-- C6 counterexample: two real candidates discovered in the order
media line 1 then media line 0 within one batching window are flushed
as a single transport-info message, but the message lists the media
line 0 candidate first, so the message does not contain the candidates
in original discovery order as the claim states. -/
theorem ice_batching_order_counterexample :
    messagesOf (iceRun 2 { lasticecandidate := false, dripContainer := [] }
        [IceInput.cand (some { candidate := "candA", sdpMLineIndex := 1 }),
         IceInput.cand (some { candidate := "candB", sdpMLineIndex := 0 }),
         IceInput.timerFire]).2
      = [[(0, [{ candidate := "candB", sdpMLineIndex := 0 }]),
          (1, [{ candidate := "candA", sdpMLineIndex := 1 }])]]
    ∧ transportInfoCandidates
        [(0, [{ candidate := "candB", sdpMLineIndex := 0 }]),
         (1, [{ candidate := "candA", sdpMLineIndex := 1 }])]
      ≠ [{ candidate := "candA", sdpMLineIndex := 1 },
         { candidate := "candB", sdpMLineIndex := 0 }] := by
  constructor
  · rfl
  · decide

/-- Helper: pushing a sequence of real candidates while the latch is
unset only accumulates them at the end of the drip container, emits no
transport-info message, and leaves the latch unset. -/
theorem iceRun_pushes (numMedia : Nat) (cands : List IceCandidateRec) :
    ∀ d : List IceCandidateRec, (∀ c ∈ cands, c.candidate ≠ "") →
      ∃ outs,
        iceRun numMedia { lasticecandidate := false, dripContainer := d }
            (cands.map fun c => IceInput.cand (some c))
          = ({ lasticecandidate := false, dripContainer := d ++ cands }, outs)
        ∧ messagesOf outs = [] := by
  induction cands with
  | nil => intro d _; exact ⟨[], by simp [iceRun], rfl⟩
  | cons c rest ih =>
      intro d hreal
      have hc : c.candidate ≠ "" := hreal c (List.mem_cons_self c rest)
      obtain ⟨outs, hrun, hmsg⟩ :=
        ih (d ++ [c]) (fun x hx => hreal x (List.mem_cons_of_mem c hx))
      have hstep : sendIceCandidate { lasticecandidate := false, dripContainer := d } (some c)
          = ({ lasticecandidate := false, dripContainer := d ++ [c] },
              if d.isEmpty then [IceOut.armTimer] else []) := by
        by_cases hd : d.isEmpty
        · simp [sendIceCandidate, hc, hd]
        · simp [sendIceCandidate, hc, hd]
      refine ⟨(if d.isEmpty then [IceOut.armTimer] else []) ++ outs, ?_, ?_⟩
      · simp only [List.map_cons, iceRun, iceStep]
        rw [hstep, hrun]
        simp [List.append_assoc]
      · by_cases hd : d.isEmpty
        · simp only [hd, if_pos] at *
          simp [messagesOf] at hmsg ⊢
          exact hmsg
        · simp only [hd, if_neg] at *
          simpa [messagesOf] using hmsg

/-- Helper: the first components of the message sections form a
sublist of the walked media line indices. -/
theorem sections_fst_sublist (cs : List IceCandidateRec) :
    ∀ l : List Nat,
      ((l.filterMap fun mid =>
          let g := cs.filter fun c => c.sdpMLineIndex == mid
          if 0 < g.length then some (mid, g) else none).map Prod.fst).Sublist l := by
  intro l
  induction l with
  | nil => simp
  | cons a l2 ih =>
      by_cases ha : 0 < (cs.filter fun c => c.sdpMLineIndex == a).length
      · simpa [List.filterMap_cons, ha] using List.Sublist.cons₂ a ih
      · simpa [List.filterMap_cons, ha] using List.Sublist.cons a ih

/-- C6 amended: a null end-of-candidates marker sets the one-shot latch
and is never transmitted, further candidates after the latch are
dropped, and all real candidates pushed within one batching window are
delivered together as a single transport-info message whose sections
are ordered by ascending media line index, each section holding exactly
the candidates of that index in original discovery order. -/
theorem ice_batching_grouped :
    (∀ (numMedia : Nat) (cands : List IceCandidateRec),
        (∀ c ∈ cands, c.candidate ≠ "") →
          messagesOf (iceRun numMedia { lasticecandidate := false, dripContainer := [] }
              ((cands.map fun c => IceInput.cand (some c)) ++ [IceInput.timerFire])).2
            = if cands.isEmpty then [] else [sendIceCandidates numMedia cands])
      ∧ (∀ (numMedia : Nat) (cands : List IceCandidateRec),
          ((sendIceCandidates numMedia cands).map Prod.fst).Pairwise (· < ·)
            ∧ ∀ mid grp, (mid, grp) ∈ sendIceCandidates numMedia cands →
                grp = cands.filter fun c => c.sdpMLineIndex == mid)
      ∧ (∀ s : IceOutState,
          sendIceCandidate s none = ({ s with lasticecandidate := true }, []))
      ∧ (∀ (s : IceOutState) (c : IceCandidateRec), s.lasticecandidate = true →
          sendIceCandidate s (some c) = ({ s with lasticecandidate := true }, [])) := by
  refine ⟨?_, ?_, ?_, ?_⟩
  · intro numMedia cands hreal
    obtain ⟨outs, hrun, hmsg⟩ := iceRun_pushes numMedia cands [] hreal
    have happ :
        iceRun numMedia { lasticecandidate := false, dripContainer := [] }
            ((cands.map fun c => IceInput.cand (some c)) ++ [IceInput.timerFire])
          = ({ lasticecandidate := false,
               dripContainer := if cands.isEmpty then cands else [] },
              outs ++ (dripTimerFire numMedia
                { lasticecandidate := false, dripContainer := cands }).2) := by
      have hsplit : ∀ (s : IceOutState) (xs ys : List IceInput),
          iceRun numMedia s (xs ++ ys)
            = ((iceRun numMedia (iceRun numMedia s xs).1 ys).1,
                (iceRun numMedia s xs).2 ++ (iceRun numMedia (iceRun numMedia s xs).1 ys).2) := by
        intro s xs ys
        induction xs generalizing s with
        | nil => simp [iceRun]
        | cons x xs2 ih => simp [iceRun, ih]
      rw [hsplit, hrun]
      by_cases hc : cands.isEmpty
      · simp [iceRun, iceStep, dripTimerFire, hc]
      · simp [iceRun, iceStep, dripTimerFire, hc]
    rw [happ]
    by_cases hc : cands.isEmpty
    · simp only [messagesOf, List.filterMap_append] at hmsg ⊢
      simp [hmsg, dripTimerFire, hc, messagesOf]
    · simp only [messagesOf, List.filterMap_append] at hmsg ⊢
      simp [hmsg, dripTimerFire, hc, messagesOf]
  · intro numMedia cands
    constructor
    · exact List.Pairwise.sublist (sections_fst_sublist cands (List.range numMedia))
        (List.pairwise_lt_range numMedia)
    · intro mid grp hmem
      unfold sendIceCandidates at hmem
      obtain ⟨a, _, ha⟩ := List.mem_filterMap.mp hmem
      by_cases h0 : 0 < (cands.filter fun c => c.sdpMLineIndex == a).length
      · simp only [if_pos h0] at ha
        injection ha with ha2
        injection ha2 with hfst hsnd
        subst hfst
        exact hsnd.symm
      · simp only [if_neg h0] at ha
        cases ha
  · intro s; rfl
  · intro s c hlatch
    simp [sendIceCandidate, hlatch]

/-- Witness for the amended C6 theorem: the concrete two-candidate
batch of the counterexample is delivered as the single grouped message,
the null marker sets the latch without output, and a candidate after
the latch is dropped. -/
theorem ice_batching_grouped_witness :
    messagesOf (iceRun 2 { lasticecandidate := false, dripContainer := [] }
        (([{ candidate := "candA", sdpMLineIndex := 1 },
            { candidate := "candB", sdpMLineIndex := 0 }].map
              fun c => IceInput.cand (some c)) ++ [IceInput.timerFire])).2
      = [sendIceCandidates 2
          [{ candidate := "candA", sdpMLineIndex := 1 },
           { candidate := "candB", sdpMLineIndex := 0 }]]
    ∧ sendIceCandidate { lasticecandidate := false, dripContainer := [] } none
        = ({ lasticecandidate := true, dripContainer := [] }, [])
    ∧ sendIceCandidate { lasticecandidate := true, dripContainer := [] }
          (some { candidate := "candC", sdpMLineIndex := 0 })
        = ({ lasticecandidate := true, dripContainer := [] }, []) :=
  ⟨(ice_batching_grouped.1 2
      [{ candidate := "candA", sdpMLineIndex := 1 },
       { candidate := "candB", sdpMLineIndex := 0 }] (by decide)),
   ice_batching_grouped.2.2.1 { lasticecandidate := false, dripContainer := [] },
   ice_batching_grouped.2.2.2 { lasticecandidate := true, dripContainer := [] }
     { candidate := "candC", sdpMLineIndex := 0 } rfl⟩

/-- Modelled from the spec: the AsyncQueue implementation imported by
JingleSessionPC as modules/util/AsyncQueue is not under src. Spec 4.1:
push appends a unit of asynchronous work; tasks execute strictly in
FIFO push order; a task signals its own completion after arbitrarily
many internal asynchronous steps; the next task does not begin until
the completion signal fires; failure of a task does not halt the queue.
A task is described by the number of its internal asynchronous steps
and whether its internal chain rejects. -/
structure QTask where
  steps : Nat
  fails : Bool
deriving DecidableEq

/-- Events of a queue run: one internal asynchronous side-effect step
of a task against the media transport, or the completion callback of a
task firing with its failure flag. Tasks are identified by push
index. -/
inductive QEvent
  | step (taskIdx : Nat) (k : Nat)
  | done (taskIdx : Nat) (failed : Bool)
deriving DecidableEq

/-- Full execution of one task: all its internal steps, then its
completion callback. -/
def runTask (i : Nat) (t : QTask) : List QEvent :=
  ((List.range t.steps).map fun k => QEvent.step i k) ++ [QEvent.done i t.fails]

/-- Execution of the whole queue from a starting push index: the
current task runs to completion, only then the next task starts, and a
failed task does not stop the remaining tasks. -/
def runQueue : List QTask → Nat → List QEvent
  | [], _ => []
  | t :: rest, i => runTask i t ++ runQueue rest (i + 1)

/-- Helper: the events of the task at position j inside a queue run
form a contiguous block of the trace. -/
theorem runQueue_decompose (ts : List QTask) :
    ∀ (b j : Nat) (hj : j < ts.length),
      ∃ pre post, runQueue ts b = pre ++ runTask (b + j) (ts.get ⟨j, hj⟩) ++ post := by
  induction ts with
  | nil => intro b j hj; exact absurd hj (by simp)
  | cons t rest ih =>
      intro b j hj
      cases j with
      | zero =>
          refine ⟨[], runQueue rest (b + 1), ?_⟩
          simp [runQueue]
      | succ j2 =>
          have hj2 : j2 < rest.length := Nat.lt_of_succ_lt_succ hj
          obtain ⟨pre2, post2, hdec⟩ := ih (b + 1) j2 hj2
          refine ⟨runTask b t ++ pre2, post2, ?_⟩
          have hidx : b + 1 + j2 = b + (j2 + 1) := by omega
          rw [runQueue, hdec, hidx]
          simp [List.append_assoc]

/-- C1: for any two positions i before j in the modification queue, the
whole event block of task j (all of its transport side effects) occurs
after the completion callback of task i has fired, and task j runs,
with its own completion event, even when task i fails. -/
theorem modificationQueue_serializes (ts : List QTask) :
    ∀ (b i j : Nat) (hij : i < j) (hj : j < ts.length),
      ∃ pre post, runQueue ts b = pre ++ runTask (b + j) (ts.get ⟨j, hj⟩) ++ post
        ∧ QEvent.done (b + i) (ts.get ⟨i, Nat.lt_trans hij hj⟩).fails ∈ pre := by
  induction ts with
  | nil => intro b i j hij hj; exact absurd hj (by simp)
  | cons t rest ih =>
      intro b i j hij hj
      cases i with
      | zero =>
          cases j with
          | zero => exact absurd hij (lt_irrefl 0)
          | succ j2 =>
              have hj2 : j2 < rest.length := Nat.lt_of_succ_lt_succ hj
              obtain ⟨pre2, post2, hdec⟩ := runQueue_decompose rest (b + 1) j2 hj2
              refine ⟨runTask b t ++ pre2, post2, ?_, ?_⟩
              · have hidx : b + 1 + j2 = b + (j2 + 1) := by omega
                rw [runQueue, hdec, hidx]
                simp [List.append_assoc]
              · have hmem : QEvent.done b t.fails ∈ runTask b t := by
                  simp [runTask]
                have : (b : Nat) + 0 = b := by omega
                rw [this]
                exact List.mem_append_left pre2 hmem
      | succ i2 =>
          cases j with
          | zero => exact absurd hij (by omega)
          | succ j2 =>
              have hij2 : i2 < j2 := Nat.lt_of_succ_lt_succ hij
              have hj2 : j2 < rest.length := Nat.lt_of_succ_lt_succ hj
              obtain ⟨pre2, post2, hdec, hmem⟩ := ih (b + 1) i2 j2 hij2 hj2
              refine ⟨runTask b t ++ pre2, post2, ?_, ?_⟩
              · have hidx : b + 1 + j2 = b + (j2 + 1) := by omega
                rw [runQueue, hdec, hidx]
                simp [List.append_assoc]
              · have hidx2 : b + 1 + i2 = b + (i2 + 1) := by omega
                rw [hidx2] at hmem
                exact List.mem_append_right (runTask b t) hmem

/-- Witness for C1: a two-task queue where the first task has two
internal steps and fails; the second task still runs, strictly after
the completion callback of the first. -/
theorem modificationQueue_serializes_witness :
    ∃ pre post,
      runQueue [{ steps := 2, fails := true }, { steps := 1, fails := false }] 0
          = pre ++ runTask 1 { steps := 1, fails := false } ++ post
        ∧ QEvent.done 0 true ∈ pre :=
  modificationQueue_serializes
    [{ steps := 2, fails := true }, { steps := 1, fails := false }] 0 0 1
    (by decide) (by decide)

/-- The Jingle session lifecycle states of spec 4.2; the state constants
module of the base class is not under src. -/
inductive JingleSessionState
  | PENDING
  | ACTIVE
  | ENDED
deriving DecidableEq

/-- The session fields read and written by the setOfferAnswerCycle work
function: the lifecycle state, the P2P flag, the local video active
flag, and the local receive max frame height preference. The base class
constructor, not under src, starts the session in PENDING per spec
4.2. -/
structure SessionState where
  state : JingleSessionState
  isP2P : Bool
  localVideoActive : Bool
  localRecvMaxFrameHeight : Option Nat
deriving DecidableEq

/-- Observable events of one queued offer/answer task, in program
order: the renegotiate promise chain resolving, the PENDING to ACTIVE
state write, the content-modify send, and the queue completion callback
invoking the success or the failure callback of the caller. -/
inductive OAEvent
  | renegotiateResolved
  | activated
  | contentModifySent
  | successCb
  | failureCb
deriving DecidableEq

/-- Embedding of the promise chain inside the work function of
JingleSessionPC.setOfferAnswerCycle, for a renegotiate that resolves or
rejects: on resolution, a session still in PENDING is moved to ACTIVE
and, for a P2P session with inactive local video or a set max frame
height preference, a content-modify is sent; the finished callback then
fires the success callback of the cycle. On rejection the failure
callback fires and the state is untouched. -/
def setOfferAnswerCycleRun (s : SessionState) (renegOk : Bool) :
    SessionState × List OAEvent :=
  if renegOk then
    if s.state = JingleSessionState.PENDING then
      ({ s with state := JingleSessionState.ACTIVE },
        [OAEvent.renegotiateResolved, OAEvent.activated]
          ++ (if s.isP2P ∧ (s.localVideoActive = false ∨ truthyNum s.localRecvMaxFrameHeight)
              then [OAEvent.contentModifySent] else [])
          ++ [OAEvent.successCb])
    else (s, [OAEvent.renegotiateResolved, OAEvent.successCb])
  else (s, [OAEvent.failureCb])

/-- The state-affecting session operations: one queued offer/answer
cycle with the outcome of its renegotiate chain, and the terminate
transition of the base class (modelled from spec 4.2, every other
transition target being ENDED). -/
inductive SessionOp
  | offerAnswer (renegOk : Bool)
  | terminate
deriving DecidableEq

/-- Apply one session operation. -/
def applySessionOp (s : SessionState) : SessionOp → SessionState × List OAEvent
  | SessionOp.offerAnswer ok => setOfferAnswerCycleRun s ok
  | SessionOp.terminate => ({ s with state := JingleSessionState.ENDED }, [])

/-- Run a sequence of session operations, collecting all events. -/
def runSession (s : SessionState) : List SessionOp → SessionState × List OAEvent
  | [] => (s, [])
  | op :: rest =>
    let p := applySessionOp s op
    let q := runSession p.1 rest
    (q.1, p.2 ++ q.2)

/-- How many PENDING to ACTIVE transitions are still possible from a
state: one from PENDING, none otherwise. -/
def activeBudget (s : SessionState) : Nat :=
  if s.state = JingleSessionState.PENDING then 1 else 0

/-- Helper: one operation fires at most the remaining budget of
activations and leaves enough budget for the rest. -/
theorem applySessionOp_budget (s : SessionState) (op : SessionOp) :
    ((applySessionOp s op).2).count OAEvent.activated
        + activeBudget (applySessionOp s op).1 ≤ activeBudget s := by
  cases op with
  | terminate => simp [applySessionOp, activeBudget]
  | offerAnswer ok =>
      by_cases hok : ok
      · subst hok
        by_cases hp : s.state = JingleSessionState.PENDING
        · simp only [applySessionOp, setOfferAnswerCycleRun, if_pos rfl, if_pos hp]
          by_cases hcm : s.isP2P ∧ (s.localVideoActive = false ∨ truthyNum s.localRecvMaxFrameHeight)
          · simp [hcm, activeBudget, hp, List.count_append, List.count_cons]
          · simp [hcm, activeBudget, hp, List.count_append, List.count_cons]
        · simp [applySessionOp, setOfferAnswerCycleRun, hp, activeBudget]
      · have : ok = false := by
          cases ok
          · rfl
          · exact absurd rfl hok
        subst this
        simp [applySessionOp, setOfferAnswerCycleRun, activeBudget]

/-- Helper: a whole run fires at most the remaining budget of
activations. -/
theorem runSession_activated_le (ops : List SessionOp) :
    ∀ s : SessionState,
      ((runSession s ops).2).count OAEvent.activated ≤ activeBudget s := by
  induction ops with
  | nil => intro s; simp [runSession]
  | cons op rest ih =>
      intro s
      have hstep := applySessionOp_budget s op
      have hrest := ih (applySessionOp s op).1
      calc ((runSession s (op :: rest)).2).count OAEvent.activated
          = ((applySessionOp s op).2).count OAEvent.activated
              + ((runSession (applySessionOp s op).1 rest).2).count OAEvent.activated := by
            simp [runSession, List.count_append]
        _ ≤ ((applySessionOp s op).2).count OAEvent.activated
              + activeBudget (applySessionOp s op).1 := by omega
        _ ≤ activeBudget s := hstep

/-- C2: over every sequence of operations on a session that starts in
PENDING, the PENDING to ACTIVE transition fires at most once; and
whenever a cycle fires it, the transition event comes immediately after
the renegotiate chain resolves and strictly before the success callback
of that cycle, which closes the trace of the cycle. -/
theorem pending_active_fires_once :
    (∀ (isP2P lva : Bool) (mfh : Option Nat) (ops : List SessionOp),
        ((runSession
            { state := JingleSessionState.PENDING, isP2P := isP2P,
              localVideoActive := lva, localRecvMaxFrameHeight := mfh } ops).2).count
          OAEvent.activated ≤ 1)
      ∧ (∀ (s : SessionState) (renegOk : Bool),
          OAEvent.activated ∈ (setOfferAnswerCycleRun s renegOk).2 →
            ∃ mid, (setOfferAnswerCycleRun s renegOk).2
              = OAEvent.renegotiateResolved :: OAEvent.activated
                  :: (mid ++ [OAEvent.successCb])) := by
  constructor
  · intro isP2P lva mfh ops
    have h := runSession_activated_le ops
      { state := JingleSessionState.PENDING, isP2P := isP2P,
        localVideoActive := lva, localRecvMaxFrameHeight := mfh }
    simpa [activeBudget] using h
  · intro s renegOk hmem
    by_cases hok : renegOk
    · subst hok
      by_cases hp : s.state = JingleSessionState.PENDING
      · refine ⟨if s.isP2P ∧ (s.localVideoActive = false ∨ truthyNum s.localRecvMaxFrameHeight)
            then [OAEvent.contentModifySent] else [], ?_⟩
        simp [setOfferAnswerCycleRun, hp]
      · simp [setOfferAnswerCycleRun, hp] at hmem
    · have : renegOk = false := by
        cases renegOk
        · rfl
        · exact absurd rfl hok
      subst this
      simp [setOfferAnswerCycleRun] at hmem

/-- Witness for C2: two successful cycles on a fresh P2P session fire
exactly one activation, and the trace of the first cycle places the
transition right after chain resolution and before the success
callback. -/
theorem pending_active_fires_once_witness :
    ((runSession
        { state := JingleSessionState.PENDING, isP2P := true,
          localVideoActive := true, localRecvMaxFrameHeight := none }
        [SessionOp.offerAnswer true, SessionOp.offerAnswer true]).2).count
      OAEvent.activated ≤ 1
    ∧ ∃ mid,
        (setOfferAnswerCycleRun
            { state := JingleSessionState.PENDING, isP2P := true,
              localVideoActive := true, localRecvMaxFrameHeight := none } true).2
          = OAEvent.renegotiateResolved :: OAEvent.activated
              :: (mid ++ [OAEvent.successCb]) :=
  ⟨pending_active_fires_once.1 true true none
      [SessionOp.offerAnswer true, SessionOp.offerAnswer true],
   pending_active_fires_once.2
      { state := JingleSessionState.PENDING, isP2P := true,
        localVideoActive := true, localRecvMaxFrameHeight := none } true (by decide)⟩

end JitsiMeet
